import Mathlib

/-!
Verification of the slot-discovery pipeline of `horas-registro-civil`.

Strings of the Python/JavaScript source are modelled as lists of
characters (`Str`).  The functions below are shallow embeddings of:

* `src/services/srcei/recommender.py` — `parse_slot_date`,
  `format_slot_datetime`, `sort_slots_by_datetime`,
  `format_slot_datetime_iso`;
* the card-extraction script and the deduplication loop inside
  `src/services/srcei/client.py` (`get_slots_by_region`);
* the control flow of `login`, `select_procedure`, `select_region` and
  `get_slots_by_region` of `SRCEIPlaywrightClient`, with the page state
  abstracted into an environment record and the page interactions of each
  stage recorded in a trace of `PageAction`s.
-/

abbrev Str := List Char

/-- Convert a Lean string literal to the character-list model. -/
def strOf (s : String) : Str := s.toList

instance {ε α : Type _} [DecidableEq ε] [DecidableEq α] : DecidableEq (Except ε α) := fun a b =>
  match a, b with
  | .error e, .error f =>
    if h : e = f then isTrue (by rw [h]) else isFalse (fun hc => by cases hc; exact h rfl)
  | .error _, .ok _ => isFalse (fun hc => by cases hc)
  | .ok _, .error _ => isFalse (fun hc => by cases hc)
  | .ok x, .ok y =>
    if h : x = y then isTrue (by rw [h]) else isFalse (fun hc => by cases hc; exact h rfl)

/-- Python exception raised by the recommender's date parsing
(`day, month, year = fecha_disponible.split("/")` raises `ValueError` on a
wrong number of parts). -/
inductive PyError where
  | valueError
deriving DecidableEq

/-- Model of Python `str.split("/")`: split on every occurrence of the
separator, keeping empty parts (`"".split("/") == [""]`). -/
def split_slash : Str → List Str
  | [] => [[]]
  | c :: cs =>
    if c = '/' then [] :: split_slash cs
    else
      match split_slash cs with
      | [] => [[c]]
      | p :: ps => (c :: p) :: ps

/-- Model of Python `str.zfill(width)`: left-pad with `'0'` up to `width`,
keeping a leading sign character in front of the padding. -/
def zfill (s : Str) (width : Nat) : Str :=
  if width ≤ s.length then s
  else
    match s with
    | [] => List.replicate width '0'
    | c :: rest =>
      if c = '+' ∨ c = '-' then c :: (List.replicate (width - s.length) '0' ++ rest)
      else List.replicate (width - s.length) '0' ++ (c :: rest)

/-- `recommender.parse_slot_date`: unpack `DD/MM/YYYY` into three parts and
recompose `f"{year}-{month.zfill(2)}-{day.zfill(2)}"`; a wrong number of
parts is the `ValueError` of tuple unpacking. -/
def parse_slot_date (fecha_disponible : Str) : Except PyError Str :=
  match split_slash fecha_disponible with
  | [day, month, year] => .ok (year ++ '-' :: (zfill month 2 ++ '-' :: zfill day 2))
  | _ => .error .valueError

/-- A raw slot record as built by the extraction script in
`client.get_slots_by_region` and consumed by the recommender. -/
structure RawSlot where
  nombreOficina : Str
  direccionOficina : Str
  fechaDisponible : Str
  horaDisponible : Str
  idOficina : Str
deriving DecidableEq

/-- `recommender.format_slot_datetime`: the sort key
`f"{iso_date} {time_str}"`; propagates the parse `ValueError`. -/
def format_slot_datetime (slot : RawSlot) : Except PyError Str :=
  match parse_slot_date slot.fechaDisponible with
  | .error e => .error e
  | .ok iso_date => .ok (iso_date ++ ' ' :: slot.horaDisponible)

/-- `recommender.format_slot_datetime_iso`: `f"{iso_date}T{time_str}:00"`. -/
def format_slot_datetime_iso (slot : RawSlot) : Except PyError Str :=
  match parse_slot_date slot.fechaDisponible with
  | .error e => .error e
  | .ok iso_date => .ok (iso_date ++ 'T' :: (slot.horaDisponible ++ strOf ":00"))

/-- Total version of the sort key, used to compare records once all keys
are known to be computable (CPython's `sorted` computes every key before
comparing). -/
def fmtKey (slot : RawSlot) : Str :=
  match format_slot_datetime slot with
  | .ok k => k
  | .error _ => []

/-- CPython's `sorted(slots, key=...)` first applies the key function to
every element in list order; the first raising element aborts the call. -/
def computeKeys : List RawSlot → Except PyError (List Str)
  | [] => .ok []
  | s :: rest =>
    match format_slot_datetime s with
    | .error e => .error e
    | .ok k =>
      match computeKeys rest with
      | .error e => .error e
      | .ok ks => .ok (k :: ks)

/-- Comparison of two records by their composed datetime key string
(lexicographic, as Python compares `str`). -/
def slotKeyLE (a b : RawSlot) : Prop := fmtKey a ≤ fmtKey b

instance : DecidableRel slotKeyLE := fun a b =>
  inferInstanceAs (Decidable (fmtKey a ≤ fmtKey b))

instance : IsTotal RawSlot slotKeyLE := ⟨fun a b => le_total (fmtKey a) (fmtKey b)⟩

instance : IsTrans RawSlot slotKeyLE := ⟨fun _ _ _ => le_trans⟩

/-- `recommender.sort_slots_by_datetime`: `sorted(slots, key=format_slot_datetime)`.
A stable sort by a total key order is extensionally unique, so Timsort is
modelled by insertion sort; key computation (and its possible `ValueError`)
happens first, in list order. -/
def sort_slots_by_datetime (slots : List RawSlot) : Except PyError (List RawSlot) :=
  match computeKeys slots with
  | .error e => .error e
  | .ok _ => .ok (List.insertionSort slotKeyLE slots)

/-- Numeric value of a digit string, as JavaScript `parseInt` on an
all-digit string. -/
def parseIntStr (l : Str) : Nat :=
  l.foldl (fun a c => a * 10 + (c.toNat - 48)) 0

/-- Lower-casing of a string, as `toLowerCase()` on the ASCII text involved. -/
def toLowerStr (l : Str) : Str := l.map Char.toLower

/-- The fixed Spanish month table of the extraction script. -/
def monthNames : List Str :=
  [strOf "Enero", strOf "Febrero", strOf "Marzo", strOf "Abril", strOf "Mayo",
   strOf "Junio", strOf "Julio", strOf "Agosto", strOf "Septiembre",
   strOf "Octubre", strOf "Noviembre", strOf "Diciembre"]

/-- The `monthMap` of the extraction script: lowercase month name to
two-digit month number. -/
def monthMap : List (Str × Str) :=
  [(strOf "enero", strOf "01"), (strOf "febrero", strOf "02"),
   (strOf "marzo", strOf "03"), (strOf "abril", strOf "04"),
   (strOf "mayo", strOf "05"), (strOf "junio", strOf "06"),
   (strOf "julio", strOf "07"), (strOf "agosto", strOf "08"),
   (strOf "septiembre", strOf "09"), (strOf "octubre", strOf "10"),
   (strOf "noviembre", strOf "11"), (strOf "diciembre", strOf "12")]

/-- Day-token test of the extraction script:
`/^\d{1,2}$/.test(line) && parseInt(line) >= 1 && parseInt(line) <= 31`. -/
def isDayLine (l : Str) : Bool :=
  (l.length == 1 || l.length == 2) && l.all Char.isDigit &&
    decide (1 ≤ parseIntStr l) && decide (parseIntStr l ≤ 31)

/-- Month-token test: `monthNames.some(m => line.toLowerCase() === m.toLowerCase())`. -/
def isMonthLine (l : Str) : Bool :=
  monthNames.any (fun m => toLowerStr l == toLowerStr m)

/-- Time-token test: `/^\d{1,2}:\d{2}$/.test(line)`. -/
def isTimeLine : Str → Bool
  | [a, ':', c, d] => a.isDigit && c.isDigit && d.isDigit
  | [a, b, ':', c, d] => a.isDigit && b.isDigit && c.isDigit && d.isDigit
  | _ => false

/-- The three mutable variables of the extraction script's line scan. -/
structure ScanState where
  day : Str
  month : Str
  time : Str
deriving DecidableEq

/-- One iteration of `for (const line of lines)`: each matching test
overwrites the corresponding variable. -/
def scanLine (st : ScanState) (line : Str) : ScanState :=
  { day := if isDayLine line then line else st.day
    month := if isMonthLine line then line else st.month
    time := if isTimeLine line then line else st.time }

/-- The whole line scan, starting from empty strings. -/
def scanLines (lines : List Str) : ScanState :=
  lines.foldl scanLine ⟨[], [], []⟩

/-- JavaScript `day.padStart(2, '0')`. -/
def padStart2 (s : Str) : Str :=
  if 2 ≤ s.length then s else List.replicate (2 - s.length) '0' ++ s

/-- `monthMap[month.toLowerCase()] || '01'`. -/
def monthNum (m : Str) : Str :=
  (monthMap.lookup (toLowerStr m)).getD (strOf "01")

/-- Decimal digits of the scrape year (`new Date().getFullYear()`),
kept abstract as a parameter. -/
def yearChars (year : Nat) : Str := (Nat.repr year).toList

/-- Extraction of one retained card from its trimmed non-empty text lines:
line 0 is the office name, line 1 the address, the scan picks the day,
month and time tokens, and a record is pushed only under
`if (officeName && day && month)`, with `time || '00:00'` and the date
composed as `${dayPadded}/${monthNum}/${year}`. -/
def extract_card (year : Nat) (lines : List Str) : Option RawSlot :=
  let officeName := lines.headD []
  let address := (lines.drop 1).headD []
  let st := scanLines lines
  if !officeName.isEmpty && !st.day.isEmpty && !st.month.isEmpty then
    some { nombreOficina := officeName
           direccionOficina := address
           fechaDisponible :=
             padStart2 st.day ++ '/' :: (monthNum st.month ++ '/' :: yearChars year)
           horaDisponible := if st.time.isEmpty then strOf "00:00" else st.time
           idOficina := [] }
  else
    none

/-- The deduplication key of `get_slots_by_region`:
`f"{slot['nombreOficina']}_{slot['fechaDisponible']}_{slot['horaDisponible']}"`. -/
def slot_key (s : RawSlot) : Str :=
  s.nombreOficina ++ '_' :: (s.fechaDisponible ++ '_' :: s.horaDisponible)

/-- The deduplication loop with its `seen` set of keys. -/
def dedup_aux (seen : List Str) : List RawSlot → List RawSlot
  | [] => []
  | s :: rest =>
    if slot_key s ∈ seen then dedup_aux seen rest
    else s :: dedup_aux (slot_key s :: seen) rest

/-- `unique_slots` as built by the loop at the end of `get_slots_by_region`. -/
def unique_slots (l : List RawSlot) : List RawSlot := dedup_aux [] l

/-- Python `"needle" in hay` / JavaScript `hay.includes(needle)`:
`strStartsWith hay needle` checks a prefix match at the current position. -/
def strStartsWith : Str → Str → Bool
  | _, [] => true
  | [], _ :: _ => false
  | a :: as, b :: bs => a == b && strStartsWith as bs

/-- Contiguous-substring test. -/
def strIncludes (hay needle : Str) : Bool :=
  match hay with
  | [] => needle.isEmpty
  | c :: rest => strStartsWith (c :: rest) needle || strIncludes rest needle

/-- First whitespace-separated word, as `procedure_name.split()[0]`. -/
def firstWord (s : Str) : Str :=
  (s.dropWhile Char.isWhitespace).takeWhile (fun c => !c.isWhitespace)

/-- Page state observed by `login`, abstracted: the title after the initial
navigation, whether some later step of the `try` block raises, and the URL
and title inspected after submitting the form. -/
structure LoginEnv where
  gotoRaises : Bool
  initialTitle : Str
  loginStepRaises : Bool
  finalUrl : Str
  finalTitle : Str
deriving DecidableEq

/-- `SRCEIPlaywrightClient.login`: any exception returns `False`; a title
containing the WAF signature `"Request Rejected"` returns `False`; success
is `"seleccion" in current_url.lower() or "Reserva de Hora" in title`. -/
def login (env : LoginEnv) : Bool :=
  if env.gotoRaises then false
  else if strIncludes env.initialTitle (strOf "Request Rejected") then false
  else if env.loginStepRaises then false
  else if strIncludes (toLowerStr env.finalUrl) (strOf "seleccion")
          || strIncludes env.finalTitle (strOf "Reserva de Hora") then true
  else false

/-- The `procedure_map` of `select_procedure`. -/
def procedure_map : List (Str × Str) :=
  [(strOf "6", strOf "Renovación Chileno/a"),
   (strOf "9", strOf "Reimpresión cédula"),
   (strOf "10", strOf "Renovación Extranjero/a"),
   (strOf "11", strOf "Solicitud de Pasaporte"),
   (strOf "12", strOf "Menores de Edad"),
   (strOf "13", strOf "Apostilla"),
   (strOf "14", strOf "Rectificaciones"),
   (strOf "15", strOf "Vehículos")]

/-- Python exception raised by the client (`raise ValueError("Must login first")`). -/
inductive ClientExc where
  | valueError (msg : Str)
deriving DecidableEq

/-- Page interactions of the pipeline stages, recorded as a trace. -/
inductive PageAction where
  | procedureInteraction
  | regionInteraction
  | extraction
deriving DecidableEq

/-- Page state observed by the navigation and extraction stages:
whether each of the three ordered procedure selectors yields a click, the
inner texts of the `button.btn` fallback candidates, whether each candidate
region-dropdown selector is usable, and the text lines of each retained
card. -/
structure PageEnv where
  procSelectorClicks : List Bool
  procButtonTexts : List Str
  regionDropdownHits : List Bool
  cards : List (List Str)
  year : Nat
deriving DecidableEq

/-- `SRCEIPlaywrightClient.select_procedure`: requires authentication
(`raise ValueError("Must login first")` otherwise, before touching the
page), resolves the id through `procedure_map` (falling back to the id
itself), tries the ordered selectors and then the `button.btn` texts
containing the first word of the name, and returns the boolean `clicked`. -/
def select_procedure (is_authenticated : Bool) (env : PageEnv) (procedure_id : Str) :
    Except ClientExc Bool × List PageAction :=
  if !is_authenticated then
    (.error (.valueError (strOf "Must login first")), [])
  else
    let procedure_name := (procedure_map.lookup procedure_id).getD procedure_id
    let clickedSel := env.procSelectorClicks.any id
    let clickedBtn := env.procButtonTexts.any (fun t => strIncludes t (firstWord procedure_name))
    (.ok (clickedSel || clickedBtn), [PageAction.procedureInteraction])

/-- `SRCEIPlaywrightClient.select_region`: tries the ordered dropdown
selectors, returns `False` (no exception) if none is usable. -/
def select_region (env : PageEnv) (_region_id : Str) : Bool × List PageAction :=
  (env.regionDropdownHits.any id, [PageAction.regionInteraction])

/-- `SRCEIPlaywrightClient.get_slots_by_region`: authentication guard, then
procedure selection, then region selection (each `False` short-circuits to
an empty list), then extraction of the retained cards and deduplication. -/
def get_slots_by_region (is_authenticated : Bool) (env : PageEnv)
    (procedure_id region_id : Str) : Except ClientExc (List RawSlot) × List PageAction :=
  if !is_authenticated then
    (.error (.valueError (strOf "Must login first")), [])
  else
    match select_procedure is_authenticated env procedure_id with
    | (.error e, tr) => (.error e, tr)
    | (.ok false, tr) => (.ok [], tr)
    | (.ok true, tr) =>
      match select_region env region_id with
      | (false, tr2) => (.ok [], tr ++ tr2)
      | (true, tr2) =>
        let slots_data := env.cards.filterMap (extract_card env.year)
        (.ok (unique_slots slots_data), tr ++ tr2 ++ [PageAction.extraction])

/-! ## Concrete records used by individual claims -/

/-- Well-formed record for the C1 counterexample batch. -/
def c1Good : RawSlot :=
  ⟨strOf "Oficina Santiago", strOf "Huérfanos 1570", strOf "29/01/2026", strOf "10:00", []⟩

/-- Record whose date string has the wrong separator count. -/
def c1Bad : RawSlot :=
  ⟨strOf "Oficina Providencia", strOf "Av. Providencia 1208", strOf "2026-01-30", strOf "11:00", []⟩

/-- Card lines containing two matching lines of every token kind. -/
def c3Lines : List Str :=
  [strOf "Oficina Central", strOf "Calle 1", strOf "10", strOf "Enero",
   strOf "09:00", strOf "20", strOf "Febrero", strOf "15:30"]

/-- Login page state whose title carries the WAF block signature. -/
def c4BlockedEnv : LoginEnv :=
  ⟨false, strOf "Request Rejected", false, strOf "https://x/web/init.srcei", strOf "Request Rejected"⟩

/-- Login page state where the form submits but no post-login marker appears. -/
def c4FailedEnv : LoginEnv :=
  ⟨false, strOf "Registro Civil", false, strOf "https://x/web/init.srcei", strOf "Registro Civil"⟩

/-- The three records of the spec's sort-stability test, office `B`. -/
def c5B : RawSlot := ⟨strOf "B", [], strOf "30/01/2026", strOf "10:00", []⟩

/-- Office `A` of the sort-stability test. -/
def c5A : RawSlot := ⟨strOf "A", [], strOf "29/01/2026", strOf "15:00", []⟩

/-- Office `C` of the sort-stability test. -/
def c5C : RawSlot := ⟨strOf "C", [], strOf "29/01/2026", strOf "09:30", []⟩

/-- Record used by the C6 collapse examples. -/
def c6r1 : RawSlot :=
  ⟨strOf "Oficina Providencia", strOf "Av. X 100", strOf "29/01/2026", strOf "10:00", strOf "77"⟩

/-- Same office, date and time as `c6r1`, differing only in office identifier. -/
def c6r2 : RawSlot :=
  ⟨strOf "Oficina Providencia", strOf "Av. X 100", strOf "29/01/2026", strOf "10:00", strOf "88"⟩

/-- Page where every procedure-selection strategy fails. -/
def c8Env : PageEnv := ⟨[false, false, false], [], [], [], 2026⟩

/-! ## Helper lemmas for the line scan -/

/-- A `foldl` that overwrites its accumulator on every match ends with the
last match, i.e. the first match of the reversed list. -/
theorem foldl_overwrite_eq (p : Str → Bool) :
    ∀ (ls : List Str) (a : Str),
      ls.foldl (fun acc l => if p l then l else acc) a = (ls.reverse.find? p).getD a := by
  intro ls
  induction ls with
  | nil => intro a; rfl
  | cons l ls ih =>
    intro a
    rw [List.foldl_cons, ih]
    simp only [List.reverse_cons, List.find?_append]
    cases h : ls.reverse.find? p with
    | some x => simp [Option.or]
    | none =>
      cases hp : p l <;> simp [Option.or, List.find?, hp]

/-- The `day` component of the scan is an overwrite-fold of `isDayLine`. -/
theorem scanLines_day_foldl :
    ∀ (ls : List Str) (st : ScanState),
      (ls.foldl scanLine st).day = ls.foldl (fun acc l => if isDayLine l then l else acc) st.day := by
  intro ls
  induction ls with
  | nil => intro st; rfl
  | cons l ls ih => intro st; rw [List.foldl_cons, List.foldl_cons, ih]; rfl

/-- The `month` component of the scan is an overwrite-fold of `isMonthLine`. -/
theorem scanLines_month_foldl :
    ∀ (ls : List Str) (st : ScanState),
      (ls.foldl scanLine st).month =
        ls.foldl (fun acc l => if isMonthLine l then l else acc) st.month := by
  intro ls
  induction ls with
  | nil => intro st; rfl
  | cons l ls ih => intro st; rw [List.foldl_cons, List.foldl_cons, ih]; rfl

/-- The `time` component of the scan is an overwrite-fold of `isTimeLine`. -/
theorem scanLines_time_foldl :
    ∀ (ls : List Str) (st : ScanState),
      (ls.foldl scanLine st).time =
        ls.foldl (fun acc l => if isTimeLine l then l else acc) st.time := by
  intro ls
  induction ls with
  | nil => intro st; rfl
  | cons l ls ih => intro st; rw [List.foldl_cons, List.foldl_cons, ih]; rfl

/-- Characterization of the scan: each extracted token is the last matching
line, i.e. the first match of the reversed line list. -/
theorem scanLines_eq_last_match (lines : List Str) :
    (scanLines lines).day = (lines.reverse.find? isDayLine).getD [] ∧
    (scanLines lines).month = (lines.reverse.find? isMonthLine).getD [] ∧
    (scanLines lines).time = (lines.reverse.find? isTimeLine).getD [] := by
  refine ⟨?_, ?_, ?_⟩
  · rw [scanLines, scanLines_day_foldl, foldl_overwrite_eq]
  · rw [scanLines, scanLines_month_foldl, foldl_overwrite_eq]
  · rw [scanLines, scanLines_time_foldl, foldl_overwrite_eq]

/-- C3 counterexample: on a card whose line list contains two matching
lines of every token kind, the scan extracts the second (last) match of
each kind, not the first one claimed by the spec. -/
theorem c3_counterexample :
    scanLines c3Lines = ⟨strOf "20", strOf "Febrero", strOf "15:30"⟩ ∧
    (scanLines c3Lines).day ≠ (c3Lines.find? isDayLine).getD [] ∧
    (scanLines c3Lines).month ≠ (c3Lines.find? isMonthLine).getD [] ∧
    (scanLines c3Lines).time ≠ (c3Lines.find? isTimeLine).getD [] := by
  decide

/-- C3 (amended): among all lines matching each token kind, the extraction
scan takes the LAST matching line of that kind as the extracted day, month
and time, since each match overwrites the variable. -/
theorem c3_scan_takes_last_match (lines : List Str) :
    (scanLines lines).day = (lines.reverse.find? isDayLine).getD [] ∧
    (scanLines lines).month = (lines.reverse.find? isMonthLine).getD [] ∧
    (scanLines lines).time = (lines.reverse.find? isTimeLine).getD [] :=
  scanLines_eq_last_match lines

/-! ## Navigation-stage claims -/

/-- C8: when none of the ordered selection strategies yields a clickable
match, `select_procedure` returns the boolean `False` (no exception) and
`get_slots_by_region` returns an empty list whose interaction trace
contains no region selection and no extraction. -/
theorem c8_selection_failure_short_circuits (env : PageEnv) (pid rid : Str)
    (h1 : env.procSelectorClicks.any id = false)
    (h2 : env.procButtonTexts.any
        (fun t => strIncludes t (firstWord ((procedure_map.lookup pid).getD pid))) = false) :
    select_procedure true env pid = (.ok false, [PageAction.procedureInteraction]) ∧
    get_slots_by_region true env pid rid = (.ok [], [PageAction.procedureInteraction]) ∧
    PageAction.regionInteraction ∉ (get_slots_by_region true env pid rid).2 ∧
    PageAction.extraction ∉ (get_slots_by_region true env pid rid).2 := by
  have hsel : select_procedure true env pid = (.ok false, [PageAction.procedureInteraction]) := by
    simp [select_procedure, h1, h2]
  have hget : get_slots_by_region true env pid rid = (.ok [], [PageAction.procedureInteraction]) := by
    simp [get_slots_by_region, hsel]
  refine ⟨hsel, hget, ?_, ?_⟩ <;> rw [hget] <;> decide

/-- Witness for C8 on a page where the three selector attempts fail and no
fallback button exists. -/
theorem c8_selection_failure_short_circuits_witness :
    select_procedure true c8Env (strOf "6") = (.ok false, [PageAction.procedureInteraction]) ∧
    get_slots_by_region true c8Env (strOf "6") (strOf "13") =
      (.ok [], [PageAction.procedureInteraction]) ∧
    PageAction.regionInteraction ∉ (get_slots_by_region true c8Env (strOf "6") (strOf "13")).2 ∧
    PageAction.extraction ∉ (get_slots_by_region true c8Env (strOf "6") (strOf "13")).2 :=
  c8_selection_failure_short_circuits c8Env (strOf "6") (strOf "13") (by decide) (by decide)

/-- C9: invoked without prior authentication, both `select_procedure` and
`get_slots_by_region` raise `ValueError("Must login first")` before any
page interaction (empty trace). -/
theorem c9_unauthenticated_raises (env : PageEnv) (pid rid : Str) :
    select_procedure false env pid = (.error (.valueError (strOf "Must login first")), []) ∧
    get_slots_by_region false env pid rid =
      (.error (.valueError (strOf "Must login first")), []) :=
  ⟨rfl, rfl⟩

/-! ## Authentication-stage claim -/

/-- C4 counterexample: a WAF-blocked page and an ordinary failed login
produce the very same outcome value `False`; there is no distinct typed
`Blocked` outcome the caller could observe. -/
theorem c4_counterexample :
    strIncludes c4BlockedEnv.initialTitle (strOf "Request Rejected") = true ∧
    strIncludes c4FailedEnv.initialTitle (strOf "Request Rejected") = false ∧
    login c4BlockedEnv = false ∧
    login c4FailedEnv = false ∧
    login c4BlockedEnv = login c4FailedEnv := by
  decide

/-- C4 (amended): when the page title matches the block-page signature,
`login` returns the plain boolean `False` — the same value produced by bad
credentials or exceptions — so the caller cannot tell a perimeter-defense
rejection apart from a login failure. -/
theorem c4_blocked_collapses_to_failed :
    (∀ env : LoginEnv, env.gotoRaises = false →
      strIncludes env.initialTitle (strOf "Request Rejected") = true →
      login env = false) ∧
    login c4BlockedEnv = login c4FailedEnv := by
  constructor
  · intro env hgoto hblock
    simp [login, hgoto, hblock]
  · decide

/-- Witness for C4 on the blocked page state. -/
theorem c4_blocked_collapses_to_failed_witness :
    login c4BlockedEnv = false ∧ login c4BlockedEnv = login c4FailedEnv :=
  ⟨c4_blocked_collapses_to_failed.1 c4BlockedEnv rfl (by decide),
   c4_blocked_collapses_to_failed.2⟩

/-! ## Parsing claims -/

/-- `split_slash` never returns the empty list. -/
theorem split_slash_ne_nil : ∀ s : Str, split_slash s ≠ [] := by
  intro s
  induction s with
  | nil => simp [split_slash]
  | cons c cs ih =>
    rw [split_slash]
    by_cases hc : c = '/'
    · simp [hc]
    · simp only [if_neg hc]
      cases h : split_slash cs with
      | nil => simp
      | cons p ps => simp

/-- The number of parts returned by `split_slash` is one more than the
number of separators. -/
theorem split_slash_length : ∀ s : Str, (split_slash s).length = s.count '/' + 1 := by
  intro s
  induction s with
  | nil => rfl
  | cons c cs ih =>
    rw [split_slash]
    by_cases hc : c = '/'
    · subst hc
      simp [List.count_cons, ih]
    · simp only [if_neg hc]
      cases h : split_slash cs with
      | nil => exact absurd h (split_slash_ne_nil cs)
      | cons p ps =>
        rw [h] at ih
        simp only [List.length_cons] at ih ⊢
        rw [List.count_cons]
        simp [hc, ih]

/-- Unfolding equation of `parse_slot_date`. -/
theorem parse_slot_date_eq (s : Str) :
    parse_slot_date s =
      match split_slash s with
      | [day, month, year] => .ok (year ++ '-' :: (zfill month 2 ++ '-' :: zfill day 2))
      | _ => .error .valueError := rfl

/-- When the separator count is wrong, `parse_slot_date` raises. -/
theorem parse_slot_date_error_of_length (s : Str) (h : (split_slash s).length ≠ 3) :
    parse_slot_date s = .error PyError.valueError := by
  rcases hsp : split_slash s with _ | ⟨a, _ | ⟨b, _ | ⟨c, _ | ⟨d, l⟩⟩⟩⟩
  · rw [parse_slot_date_eq, hsp]
  · rw [parse_slot_date_eq, hsp]
  · rw [parse_slot_date_eq, hsp]
  · exact absurd (by rw [hsp]; rfl) h
  · rw [parse_slot_date_eq, hsp]

/-- C10: `parse_slot_date` raises exactly when the input does not contain
exactly two `/` separators; any well-delimited input succeeds and is
recomposed without numeric or calendar validation, e.g. `99/xx/2026`
yields `2026-xx-99`. -/
theorem c10_parse_raises_iff_bad_separators :
    (∀ s : Str, parse_slot_date s = .error PyError.valueError ↔ s.count '/' ≠ 2) ∧
    (∀ s : Str, s.count '/' = 2 →
      ∃ d m y, split_slash s = [d, m, y] ∧
        parse_slot_date s = .ok (y ++ '-' :: (zfill m 2 ++ '-' :: zfill d 2))) ∧
    parse_slot_date (strOf "99/xx/2026") = .ok (strOf "2026-xx-99") := by
  have hok : ∀ s : Str, s.count '/' = 2 →
      ∃ d m y, split_slash s = [d, m, y] ∧
        parse_slot_date s = .ok (y ++ '-' :: (zfill m 2 ++ '-' :: zfill d 2)) := by
    intro s hcount
    have hlen : (split_slash s).length = 3 := by rw [split_slash_length, hcount]
    rcases hsp : split_slash s with _ | ⟨a, _ | ⟨b, _ | ⟨c, _ | ⟨d, l⟩⟩⟩⟩
    · rw [hsp] at hlen
      simp only [List.length_nil, List.length_cons] at hlen
      omega
    · rw [hsp] at hlen
      simp only [List.length_nil, List.length_cons] at hlen
      omega
    · rw [hsp] at hlen
      simp only [List.length_nil, List.length_cons] at hlen
      omega
    · exact ⟨a, b, c, rfl, by rw [parse_slot_date_eq, hsp]⟩
    · rw [hsp] at hlen
      simp only [List.length_nil, List.length_cons] at hlen
      omega
  refine ⟨?_, hok, by decide⟩
  intro s
  constructor
  · intro herr hcount
    obtain ⟨d, m, y, _, hokk⟩ := hok s hcount
    rw [herr] at hokk
    cases hokk
  · intro hcount
    apply parse_slot_date_error_of_length
    rw [split_slash_length]
    omega

/-- Witness for C10: a string with one separator raises, a well-delimited
one splits in three. -/
theorem c10_parse_raises_iff_bad_separators_witness :
    parse_slot_date (strOf "29-01/2026") = .error PyError.valueError ∧
    ∃ d m y, split_slash (strOf "1/2/3") = [d, m, y] ∧
      parse_slot_date (strOf "1/2/3") = .ok (y ++ '-' :: (zfill m 2 ++ '-' :: zfill d 2)) :=
  ⟨(c10_parse_raises_iff_bad_separators.1 (strOf "29-01/2026")).mpr (by decide),
   c10_parse_raises_iff_bad_separators.2.1 (strOf "1/2/3") (by decide)⟩

/-! ## Batch-abort claim -/

/-- A record whose date fails to parse makes the whole key computation of
`sorted` raise. -/
theorem computeKeys_error_of_mem :
    ∀ (slots : List RawSlot) (s : RawSlot), s ∈ slots →
      (∃ e, parse_slot_date s.fechaDisponible = .error e) →
      ∃ e, computeKeys slots = .error e := by
  intro slots
  induction slots with
  | nil => intro s hs; cases hs
  | cons a rest ih =>
    intro s hs hpe
    obtain ⟨e, he⟩ := hpe
    rw [computeKeys]
    cases hfa : format_slot_datetime a with
    | error f => exact ⟨f, rfl⟩
    | ok k =>
      rw [List.mem_cons] at hs
      rcases hs with rfl | hs
      · simp [format_slot_datetime, he] at hfa
      · obtain ⟨f, hf⟩ := ih s hs ⟨e, he⟩
        rw [hf]
        exact ⟨f, rfl⟩

/-- C1 counterexample: a batch holding one well-formed record and one
record with the wrong separator count is aborted whole — `sorted` raises
`ValueError` and the well-formed record is not returned. -/
theorem c1_counterexample :
    sort_slots_by_datetime [c1Good, c1Bad] = .error PyError.valueError ∧
    sort_slots_by_datetime [c1Good, c1Bad] ≠ .ok [c1Good] := by
  decide

/-- C1 (amended): a record whose date string has the wrong separator count
raises `ValueError` during key computation, aborting the whole batch: no
sorted remainder is returned (the router maps the exception to an error
response). -/
theorem c1_malformed_record_aborts_batch (slots : List RawSlot)
    (h : ∃ s ∈ slots, ∃ e, parse_slot_date s.fechaDisponible = .error e) :
    ∃ e, sort_slots_by_datetime slots = .error e := by
  obtain ⟨s, hs, he⟩ := h
  obtain ⟨e, hek⟩ := computeKeys_error_of_mem slots s hs he
  exact ⟨e, by rw [sort_slots_by_datetime, hek]⟩

/-- Witness for C1 on the concrete two-record batch. -/
theorem c1_malformed_record_aborts_batch_witness :
    ∃ e, sort_slots_by_datetime [c1Good, c1Bad] = .error e :=
  c1_malformed_record_aborts_batch [c1Good, c1Bad]
    ⟨c1Bad, by decide, PyError.valueError, by decide⟩

/-! ## Round-trip claim -/

/-- A decimal digit is not the separator. -/
theorem isDigit_ne_slash (c : Char) (h : c.isDigit = true) : c ≠ '/' := by
  intro hc
  subst hc
  exact absurd h (by decide)

/-- Splitting a separator-free string yields that single part. -/
theorem split_slash_of_no_slash : ∀ a : Str, (∀ c ∈ a, c ≠ '/') → split_slash a = [a] := by
  intro a
  induction a with
  | nil => intro _; rfl
  | cons c cs ih =>
    intro h
    have hc : c ≠ '/' := h c (List.mem_cons_self c cs)
    rw [split_slash, if_neg hc, ih (fun x hx => h x (List.mem_cons_of_mem c hx))]

/-- Splitting past a separator-free chunk followed by a separator. -/
theorem split_slash_append (a rest : Str) (h : ∀ c ∈ a, c ≠ '/') :
    split_slash (a ++ '/' :: rest) = a :: split_slash rest := by
  induction a with
  | nil =>
    rw [List.nil_append, split_slash, if_pos rfl]
  | cons c cs ih =>
    have hc : c ≠ '/' := h c (List.mem_cons_self c cs)
    rw [List.cons_append, split_slash, if_neg hc,
      ih (fun x hx => h x (List.mem_cons_of_mem c hx))]

/-- `zfill` leaves a string of length at least two unchanged. -/
theorem zfill_eq_of_le (s : Str) (h : 2 ≤ s.length) : zfill s 2 = s := by
  rw [zfill.eq_def, if_pos h]

/-- `zfill` left-pads a single digit with one zero. -/
theorem zfill_two_single (c : Char) (hc : c.isDigit = true) : zfill [c] 2 = ['0', c] := by
  have h2 : ¬ (2 ≤ ([c] : Str).length) := by simp
  have hpm : ¬ (c = '+' ∨ c = '-') := by
    rintro (hp | hm)
    · subst hp; exact absurd hc (by decide)
    · subst hm; exact absurd hc (by decide)
  rw [zfill.eq_def, if_neg h2]
  simp [hpm]

/-- A leading zero does not change the numeric value. -/
theorem parseIntStr_zero_cons (s : Str) : parseIntStr ('0' :: s) = parseIntStr s := by
  simp only [parseIntStr, List.foldl_cons]
  have h : 0 * 10 + ('0'.toNat - 48) = 0 := by decide
  rw [h]

/-- Zero-padding a one- or two-digit numeral yields a two-digit numeral
with the same value. -/
theorem zfill_two_digits (s : Str) (hall : s.all Char.isDigit = true)
    (hlen : s.length = 1 ∨ s.length = 2) :
    (zfill s 2).length = 2 ∧ (zfill s 2).all Char.isDigit = true ∧
      parseIntStr (zfill s 2) = parseIntStr s := by
  rcases hlen with h1 | h2
  · obtain ⟨c, rfl⟩ := List.length_eq_one.mp h1
    have hc : c.isDigit = true := by simpa using hall
    rw [zfill_two_single c hc]
    refine ⟨rfl, ?_, parseIntStr_zero_cons [c]⟩
    simp [hc]
  · rw [zfill_eq_of_le s (by omega)]
    exact ⟨h2, hall, rfl⟩

/-- C2: parsing a valid `D/M/YYYY` date (day and month one or two digits,
in calendar range) produces zero-padded `YYYY-MM-DD`: the year, a hyphen,
a two-digit month of the same value, a hyphen, and a two-digit day of the
same value. -/
theorem c2_parse_valid_date (ds ms ys : Str)
    (hd : ds.all Char.isDigit = true) (hdlen : ds.length = 1 ∨ ds.length = 2)
    (hdlo : 1 ≤ parseIntStr ds) (hdhi : parseIntStr ds ≤ 31)
    (hm : ms.all Char.isDigit = true) (hmlen : ms.length = 1 ∨ ms.length = 2)
    (hmlo : 1 ≤ parseIntStr ms) (hmhi : parseIntStr ms ≤ 12)
    (hy : ys.all Char.isDigit = true) (hylen : ys.length = 4) :
    parse_slot_date (ds ++ '/' :: (ms ++ '/' :: ys)) =
        .ok (ys ++ '-' :: (zfill ms 2 ++ '-' :: zfill ds 2)) ∧
      (zfill ms 2).length = 2 ∧ (zfill ds 2).length = 2 ∧
      (zfill ms 2).all Char.isDigit = true ∧ (zfill ds 2).all Char.isDigit = true ∧
      parseIntStr (zfill ms 2) = parseIntStr ms ∧
      parseIntStr (zfill ds 2) = parseIntStr ds := by
  have hd' : ∀ c ∈ ds, c ≠ '/' := fun c hc =>
    isDigit_ne_slash c (List.all_eq_true.mp hd c hc)
  have hm' : ∀ c ∈ ms, c ≠ '/' := fun c hc =>
    isDigit_ne_slash c (List.all_eq_true.mp hm c hc)
  have hy' : ∀ c ∈ ys, c ≠ '/' := fun c hc =>
    isDigit_ne_slash c (List.all_eq_true.mp hy c hc)
  have hsp : split_slash (ds ++ '/' :: (ms ++ '/' :: ys)) = [ds, ms, ys] := by
    rw [split_slash_append ds _ hd', split_slash_append ms _ hm',
      split_slash_of_no_slash ys hy']
  obtain ⟨hml, hma, hmv⟩ := zfill_two_digits ms hm hmlen
  obtain ⟨hdl, hda, hdv⟩ := zfill_two_digits ds hd hdlen
  exact ⟨by rw [parse_slot_date_eq, hsp], hml, hdl, hma, hda, hmv, hdv⟩

/-- Witness for C2 on the repository's own test vector `5/3/2026`. -/
theorem c2_parse_valid_date_witness :
    parse_slot_date (strOf "5" ++ '/' :: (strOf "3" ++ '/' :: strOf "2026")) =
        .ok (strOf "2026" ++ '-' :: (zfill (strOf "3") 2 ++ '-' :: zfill (strOf "5") 2)) ∧
      (zfill (strOf "3") 2).length = 2 ∧ (zfill (strOf "5") 2).length = 2 ∧
      (zfill (strOf "3") 2).all Char.isDigit = true ∧
      (zfill (strOf "5") 2).all Char.isDigit = true ∧
      parseIntStr (zfill (strOf "3") 2) = parseIntStr (strOf "3") ∧
      parseIntStr (zfill (strOf "5") 2) = parseIntStr (strOf "5") :=
  c2_parse_valid_date (strOf "5") (strOf "3") (strOf "2026")
    (by decide) (by decide) (by decide) (by decide)
    (by decide) (by decide) (by decide) (by decide)
    (by decide) (by decide)

/-! ## Sorting claim -/

/-- When every record's key is computable, the key-computation pass of
`sorted` succeeds. -/
theorem computeKeys_ok_of_all :
    ∀ slots : List RawSlot, (∀ s ∈ slots, ∃ k, format_slot_datetime s = .ok k) →
      ∃ ks, computeKeys slots = .ok ks := by
  intro slots
  induction slots with
  | nil => intro _; exact ⟨[], rfl⟩
  | cons a rest ih =>
    intro h
    obtain ⟨k, hk⟩ := h a (List.mem_cons_self _ _)
    obtain ⟨ks, hks⟩ := ih (fun s hs => h s (List.mem_cons_of_mem _ hs))
    exact ⟨k :: ks, by rw [computeKeys, hk, hks]⟩

/-- C5: on a batch of records with well-formed dates,
`sort_slots_by_datetime` returns a permutation of the input that is sorted
ascending by the composed key string `"<ISO date> <time>"`, any two records
with equal keys keeping their original relative order; and the spec's
three-record example sorts to `C, A, B`. -/
theorem c5_sort_ascending_stable :
    (∀ slots : List RawSlot,
      (∀ s ∈ slots, ∃ k, format_slot_datetime s = .ok k) →
      ∃ out, sort_slots_by_datetime slots = .ok out ∧
        out.Perm slots ∧ List.Sorted slotKeyLE out ∧
        ∀ a b : RawSlot, List.Sublist [a, b] slots → fmtKey a = fmtKey b → List.Sublist [a, b] out) ∧
    sort_slots_by_datetime [c5B, c5A, c5C] = .ok [c5C, c5A, c5B] := by
  constructor
  · intro slots h
    obtain ⟨ks, hks⟩ := computeKeys_ok_of_all slots h
    refine ⟨List.insertionSort slotKeyLE slots, by rw [sort_slots_by_datetime, hks],
      List.perm_insertionSort slotKeyLE slots, List.sorted_insertionSort slotKeyLE slots,
      fun a b hab hk => List.pair_sublist_insertionSort (show slotKeyLE a b from le_of_eq hk) hab⟩
  · decide

/-- Witness for C5 on the spec's three-record example. -/
theorem c5_sort_ascending_stable_witness :
    ∃ out, sort_slots_by_datetime [c5B, c5A, c5C] = .ok out ∧
      out.Perm [c5B, c5A, c5C] ∧ List.Sorted slotKeyLE out ∧
      ∀ a b : RawSlot, List.Sublist [a, b] [c5B, c5A, c5C] → fmtKey a = fmtKey b → List.Sublist [a, b] out := by
  refine c5_sort_ascending_stable.1 [c5B, c5A, c5C] ?_
  intro s hs
  fin_cases hs
  · exact ⟨_, rfl⟩
  · exact ⟨_, rfl⟩
  · exact ⟨_, rfl⟩

/-! ## Deduplication claim -/

/-- The deduplication loop only removes records: its output is a sublist
of its input. -/
theorem dedup_aux_sublist : ∀ (l : List RawSlot) (seen : List Str), (dedup_aux seen l).Sublist l := by
  intro l
  induction l with
  | nil => intro seen; exact List.Sublist.refl _
  | cons s rest ih =>
    intro seen
    rw [dedup_aux]
    by_cases h : slot_key s ∈ seen
    · rw [if_pos h]
      exact (ih seen).trans (List.sublist_cons_self s rest)
    · rw [if_neg h]
      exact (ih _).cons₂ s

/-- Every kept record's key was unseen when the loop reached it. -/
theorem dedup_aux_key_not_seen :
    ∀ (l : List RawSlot) (seen : List Str) (y : RawSlot),
      y ∈ dedup_aux seen l → slot_key y ∉ seen := by
  intro l
  induction l with
  | nil =>
    intro seen y hy
    rw [dedup_aux] at hy
    cases hy
  | cons s rest ih =>
    intro seen y hy
    rw [dedup_aux] at hy
    by_cases h : slot_key s ∈ seen
    · rw [if_pos h] at hy
      exact ih seen y hy
    · rw [if_neg h] at hy
      rcases List.mem_cons.mp hy with rfl | hy'
      · exact h
      · intro hmem
        exact ih _ y hy' (List.mem_cons_of_mem _ hmem)

/-- The keys of the kept records are pairwise distinct. -/
theorem dedup_aux_pairwise :
    ∀ (l : List RawSlot) (seen : List Str),
      (dedup_aux seen l).Pairwise (fun a b => slot_key a ≠ slot_key b) := by
  intro l
  induction l with
  | nil => intro seen; rw [dedup_aux]; exact List.Pairwise.nil
  | cons s rest ih =>
    intro seen
    rw [dedup_aux]
    by_cases h : slot_key s ∈ seen
    · rw [if_pos h]
      exact ih seen
    · rw [if_neg h]
      refine List.Pairwise.cons ?_ (ih _)
      intro b hb heq
      exact dedup_aux_key_not_seen rest _ b hb (by rw [← heq]; exact List.mem_cons_self _ _)

/-- Every kept record is the first record of its key in the input. -/
theorem dedup_aux_first :
    ∀ (l : List RawSlot) (seen : List Str) (y : RawSlot), y ∈ dedup_aux seen l →
      l.find? (fun z => slot_key z == slot_key y) = some y := by
  intro l
  induction l with
  | nil =>
    intro seen y hy
    rw [dedup_aux] at hy
    cases hy
  | cons s rest ih =>
    intro seen y hy
    rw [dedup_aux] at hy
    by_cases h : slot_key s ∈ seen
    · rw [if_pos h] at hy
      have hyn := dedup_aux_key_not_seen rest seen y hy
      have hne : ¬ ((slot_key s == slot_key y) = true) := by
        rw [beq_iff_eq]
        intro heq
        exact hyn (heq ▸ h)
      have hstep : List.find? (fun z => slot_key z == slot_key y) (s :: rest) =
          List.find? (fun z => slot_key z == slot_key y) rest :=
        List.find?_cons_of_neg rest hne
      rw [hstep]
      exact ih seen y hy
    · rw [if_neg h] at hy
      rcases List.mem_cons.mp hy with rfl | hy'
      · exact List.find?_cons_of_pos rest (by simp)
      · have hyn := dedup_aux_key_not_seen rest _ y hy'
        have hne : ¬ ((slot_key s == slot_key y) = true) := by
          rw [beq_iff_eq]
          intro heq
          exact hyn (by rw [← heq]; exact List.mem_cons_self _ _)
        have hstep : List.find? (fun z => slot_key z == slot_key y) (s :: rest) =
            List.find? (fun z => slot_key z == slot_key y) rest :=
          List.find?_cons_of_neg rest hne
        rw [hstep]
        exact ih _ y hy'

/-- Every input record whose key is unseen is represented in the output. -/
theorem dedup_aux_covers :
    ∀ (l : List RawSlot) (seen : List Str) (x : RawSlot), x ∈ l → slot_key x ∉ seen →
      ∃ y ∈ dedup_aux seen l, slot_key y = slot_key x := by
  intro l
  induction l with
  | nil => intro seen x hx; cases hx
  | cons s rest ih =>
    intro seen x hx hxs
    rw [dedup_aux]
    by_cases h : slot_key s ∈ seen
    · rw [if_pos h]
      rcases List.mem_cons.mp hx with rfl | hx'
      · exact absurd h hxs
      · exact ih seen x hx' hxs
    · rw [if_neg h]
      by_cases hxy : slot_key x = slot_key s
      · exact ⟨s, List.mem_cons_self _ _, hxy.symm⟩
      · rcases List.mem_cons.mp hx with rfl | hx'
        · exact absurd rfl hxy
        · obtain ⟨y, hy, hky⟩ := ih (slot_key s :: seen) x hx' (by
            intro hmem
            rcases List.mem_cons.mp hmem with heq | hmem'
            · exact hxy heq
            · exact hxs hmem')
          exact ⟨y, List.mem_cons_of_mem _ hy, hky⟩

/-- C6: deduplication keys each record by office name, ISO date and time,
keeps exactly the first-seen record per key (output keys are pairwise
distinct, every kept record is the first of its key, every input key is
represented), preserves relative order (sublist); identical records
collapse, and records differing only in office identifier collapse with
the first seen winning. -/
theorem c6_dedup_keeps_first_seen :
    (∀ l : List RawSlot,
      (unique_slots l).Sublist l ∧
      (unique_slots l).Pairwise (fun a b => slot_key a ≠ slot_key b) ∧
      (∀ y ∈ unique_slots l, l.find? (fun z => slot_key z == slot_key y) = some y) ∧
      (∀ x ∈ l, ∃ y ∈ unique_slots l, slot_key y = slot_key x)) ∧
    unique_slots [c6r1, c6r1] = [c6r1] ∧
    unique_slots [c6r1, c6r2] = [c6r1] ∧
    c6r1.idOficina ≠ c6r2.idOficina ∧ slot_key c6r1 = slot_key c6r2 := by
  refine ⟨fun l => ⟨dedup_aux_sublist l [], dedup_aux_pairwise l [],
    fun y hy => dedup_aux_first l [] y hy,
    fun x hx => dedup_aux_covers l [] x hx (by intro hc; cases hc)⟩,
    by decide, by decide, by decide, by decide⟩

/-- Witness for C6 on the pair differing only in office identifier. -/
theorem c6_dedup_keeps_first_seen_witness :
    [c6r1, c6r2].find? (fun z => slot_key z == slot_key c6r1) = some c6r1 ∧
    ∃ y ∈ unique_slots [c6r1, c6r2], slot_key y = slot_key c6r2 :=
  ⟨(c6_dedup_keeps_first_seen.1 [c6r1, c6r2]).2.2.1 c6r1 (by decide),
   (c6_dedup_keeps_first_seen.1 [c6r1, c6r2]).2.2.2 c6r2 (by decide)⟩

/-! ## Card-emission claim -/

/-- A line passing the day test is non-empty. -/
theorem isDayLine_ne_nil (l : Str) (h : isDayLine l = true) : l ≠ [] := by
  intro hl
  subst hl
  exact absurd h (by decide)

/-- A line passing the month test is non-empty. -/
theorem isMonthLine_ne_nil (l : Str) (h : isMonthLine l = true) : l ≠ [] := by
  intro hl
  subst hl
  exact absurd h (by decide)

/-- The last-match pick is non-empty exactly when some line matches,
provided no matching line is empty. -/
theorem getD_find_rev_ne_nil (p : Str → Bool) (hp : ∀ x, p x = true → x ≠ [])
    (ls : List Str) :
    ((ls.reverse.find? p).getD [] ≠ [] ↔ ls.any p = true) := by
  constructor
  · intro h
    cases hf : ls.reverse.find? p with
    | none => rw [hf] at h; simp at h
    | some x =>
      have hpx := List.find?_some hf
      have hmem := List.mem_reverse.mp (List.mem_of_find?_eq_some hf)
      exact List.any_eq_true.mpr ⟨x, hmem, hpx⟩
  · intro h
    obtain ⟨x, hx, hpx⟩ := List.any_eq_true.mp h
    cases hf : ls.reverse.find? p with
    | none =>
      rw [List.find?_eq_none] at hf
      exact absurd hpx (hf x (List.mem_reverse.mpr hx))
    | some y =>
      have hpy := List.find?_some hf
      simp only [Option.getD_some]
      exact hp y hpy

/-- The emission condition of the extraction script, as a boolean. -/
theorem extract_card_isSome (year : Nat) (lines : List Str) :
    (extract_card year lines).isSome =
      (!(lines.headD []).isEmpty && !(scanLines lines).day.isEmpty &&
        !(scanLines lines).month.isEmpty) := by
  simp only [extract_card]
  cases hc : (!(lines.headD []).isEmpty && !(scanLines lines).day.isEmpty &&
      !(scanLines lines).month.isEmpty) <;> simp [hc]

/-- The emitted time field: the scanned time, defaulting to `00:00`. -/
theorem extract_card_some_hora (year : Nat) (lines : List Str) (r : RawSlot)
    (hr : extract_card year lines = some r) :
    r.horaDisponible =
      if (scanLines lines).time.isEmpty then strOf "00:00" else (scanLines lines).time := by
  simp only [extract_card] at hr
  by_cases hc : (!(lines.headD []).isEmpty && !(scanLines lines).day.isEmpty &&
      !(scanLines lines).month.isEmpty) = true
  · rw [if_pos hc] at hr
    obtain rfl := Option.some.inj hr
    rfl
  · rw [if_neg hc] at hr
    cases hr

/-- C7: a card is emitted as a raw record exactly when a day token and a
month token are found among its trimmed non-empty lines (the office name,
being the first trimmed non-empty line, then exists automatically); a
missing time token alone never excludes the card — the time defaults to
`00:00`. -/
theorem c7_emission_requires_day_month (year : Nat) (lines : List Str)
    (h : ∀ l ∈ lines, l ≠ []) :
    ((extract_card year lines).isSome = true ↔
      lines.any isDayLine = true ∧ lines.any isMonthLine = true) ∧
    (∀ r, extract_card year lines = some r → lines.any isTimeLine = false →
      r.horaDisponible = strOf "00:00") := by
  have hchar := scanLines_eq_last_match lines
  have hdayiff : ((scanLines lines).day ≠ [] ↔ lines.any isDayLine = true) := by
    rw [hchar.1]
    exact getD_find_rev_ne_nil isDayLine isDayLine_ne_nil lines
  have hmonthiff : ((scanLines lines).month ≠ [] ↔ lines.any isMonthLine = true) := by
    rw [hchar.2.1]
    exact getD_find_rev_ne_nil isMonthLine isMonthLine_ne_nil lines
  constructor
  · rw [extract_card_isSome]
    simp only [Bool.and_eq_true, Bool.not_eq_true', List.isEmpty_eq_false]
    constructor
    · rintro ⟨⟨_, hdy⟩, hmo⟩
      exact ⟨hdayiff.mp hdy, hmonthiff.mp hmo⟩
    · rintro ⟨hdy, hmo⟩
      have hd' := hdayiff.mpr hdy
      have hm' := hmonthiff.mpr hmo
      have hlne : lines ≠ [] := by
        intro he
        subst he
        simp at hdy
      refine ⟨⟨?_, hd'⟩, hm'⟩
      cases lines with
      | nil => exact absurd rfl hlne
      | cons a t => exact h a (List.mem_cons_self _ _)
  · intro r hr ht
    rw [extract_card_some_hora year lines r hr]
    have hnone : lines.reverse.find? isTimeLine = none := by
      rw [List.find?_eq_none]
      intro x hx hpx
      have : lines.any isTimeLine = true :=
        List.any_eq_true.mpr ⟨x, List.mem_reverse.mp hx, hpx⟩
      rw [ht] at this
      cases this
    have htime : (scanLines lines).time = [] := by
      rw [hchar.2.2, hnone]
      rfl
    rw [htime]
    rfl

/-- Witness for C7 on a card with office, address, day and month lines but
no time line. -/
theorem c7_emission_requires_day_month_witness :
    ((extract_card 2026 [strOf "Oficina", strOf "Dir", strOf "5", strOf "Enero"]).isSome = true ↔
      [strOf "Oficina", strOf "Dir", strOf "5", strOf "Enero"].any isDayLine = true ∧
      [strOf "Oficina", strOf "Dir", strOf "5", strOf "Enero"].any isMonthLine = true) ∧
    (∀ r, extract_card 2026 [strOf "Oficina", strOf "Dir", strOf "5", strOf "Enero"] = some r →
      [strOf "Oficina", strOf "Dir", strOf "5", strOf "Enero"].any isTimeLine = false →
      r.horaDisponible = strOf "00:00") :=
  c7_emission_requires_day_month 2026
    [strOf "Oficina", strOf "Dir", strOf "5", strOf "Enero"] (by decide)
